import Mathlib

/-!
Verification of the extraction-and-reconciliation pipeline of `app.py`
(Government Budget Validator).

Shallow embedding conventions:
* Python `str` values are Lean `String`s (scanned as `List Char` where a
  character-level scan mirrors a regex search).
* A possibly-missing cell or column label (`None` in Python, `NaN` in a
  pandas column) is an `Option`.
* Python/pandas floating-point numbers are modelled as rationals `ℚ`;
  the numeric parsers return an integer mantissa with a decimal scale so
  that parsing is executable over `Int`/`Nat`.
* The per-upload pipeline state is passed explicitly; Streamlit display
  calls are modelled as fields of result records.
-/

/-! ### Python string primitives -/

/-- Whitespace characters removed by Python's `str.strip()` (ASCII range). -/
def isPySpace (c : Char) : Bool :=
  c = ' ' || c = '\t' || c = '\n' || c = '\r' || c = '\x0b' || c = '\x0c'

/-- Python `str.strip()`: drop leading and trailing whitespace. -/
def pyStrip (s : String) : String :=
  String.mk (((s.toList.dropWhile isPySpace).reverse.dropWhile isPySpace).reverse)

/-- Python `str.lower()` (ASCII model, matching `Char.toLower`). -/
def pyLower (s : String) : String :=
  String.mk (s.toList.map Char.toLower)

/-- Python's `needle in hay` substring test on strings. -/
def strContains (hay needle : String) : Bool :=
  (List.range (hay.toList.length + 1)).any
    (fun i => needle.toList.isPrefixOf (hay.toList.drop i))

/-- Python `str(x)` for a nullable string: `str(None) = "None"`. -/
def pyStr : Option String → String
  | none => "None"
  | some s => s

/-! ### `make_unique` (app.py lines 24-43) -/

/-- The per-entry preprocessing of `make_unique` (app.py lines 33-35):
`None` is replaced by `"Unnamed"`, then `str(col).strip()`. -/
def normalizeName (col : Option String) : String :=
  match col with
  | none => pyStrip "Unnamed"
  | some s => pyStrip s

/-- Lookup in the `counts` dict of `make_unique` (a Python `dict` keyed by
column name; insertion order never matters for lookups). -/
def lookupCount : List (String × Nat) → String → Option Nat
  | [], _ => none
  | (k, v) :: rest, key => if k = key then some v else lookupCount rest key

/-- `counts[key] = v` on the dict of `make_unique`. -/
def setCount : List (String × Nat) → String → Nat → List (String × Nat)
  | [], key, v => [(key, v)]
  | (k, w) :: rest, key, v =>
      if k = key then (k, v) :: rest else (k, w) :: setCount rest key v

/-- The loop of `make_unique` (app.py lines 31-42), with the running
`counts` dict made explicit. -/
def make_unique_aux : List (String × Nat) → List (Option String) → List String
  | _, [] => []
  | counts, c :: rest =>
      let col := normalizeName c
      match lookupCount counts col with
      | some n =>
          (col ++ "." ++ toString (n + 1)) ::
            make_unique_aux (setCount counts col (n + 1)) rest
      | none => col :: make_unique_aux (setCount counts col 0) rest

/-- `make_unique(columns)` (app.py lines 24-43). -/
def make_unique (columns : List (Option String)) : List String :=
  make_unique_aux [] columns

/-- Closed form written from the spec's words (§4.1): position `i` emits the
trimmed name unsuffixed when no earlier entry normalizes to the same name,
and `"{name}.{N}"` on the Nth repeat (N ≥ 1). -/
def dedupeSpec (input : List (Option String)) : List String :=
  (List.range input.length).map (fun i =>
    let name := normalizeName (input.getD i none)
    let n := ((input.take i).map normalizeName).count name
    if n = 0 then name else name ++ "." ++ toString n)

/-! #### `make_unique` refinement proof -/

theorem lookupCount_setCount (counts : List (String × Nat)) (key : String)
    (v : Nat) (name : String) :
    lookupCount (setCount counts key v) name =
      if key = name then some v else lookupCount counts name := by
  induction counts with
  | nil =>
      by_cases h : key = name <;> simp [setCount, lookupCount, h]
  | cons p rest ih =>
      obtain ⟨k, w⟩ := p
      by_cases hk : k = key
      · subst hk
        by_cases h : k = name <;> simp [setCount, lookupCount, h]
      · by_cases h : k = name
        · subst h
          have : ¬ key = k := fun hc => hk hc.symm
          simp [setCount, lookupCount, hk, this]
        · simp [setCount, lookupCount, hk, h, ih]

/-- The `counts` dict encodes, for every name, one less than the number of
occurrences of that name in the already-processed prefix `m`. -/
def CountsEncode (counts : List (String × Nat)) (m : List String) : Prop :=
  ∀ name : String,
    lookupCount counts name =
      if m.count name = 0 then none else some (m.count name - 1)

theorem countsEncode_step (counts : List (String × Nat)) (m : List String)
    (henc : CountsEncode counts m) (col : String) :
    CountsEncode
      (setCount counts col (match lookupCount counts col with
        | some n => n + 1
        | none => 0))
      (m ++ [col]) := by
  intro name
  rw [lookupCount_setCount]
  have hcnt : (m ++ [col]).count name =
      m.count name + if col = name then 1 else 0 := by
    rw [List.count_append]
    by_cases h : col = name
    · subst h; simp
    · have : ¬ (col == name) = true := by simpa using h
      simp [List.count_singleton', this, h]
  by_cases h : col = name
  · subst h
    rw [henc col]
    by_cases h0 : m.count col = 0
    · simp [hcnt, h0]
    · simp only [hcnt, if_pos rfl, henc]
      have h1 : 1 ≤ m.count col := Nat.one_le_iff_ne_zero.mpr h0
      simp [h0, Nat.sub_add_cancel h1, Nat.add_sub_cancel]
  · simp [hcnt, h, henc name]

theorem make_unique_aux_spec (rest : List (Option String))
    (counts : List (String × Nat)) (m : List String)
    (henc : CountsEncode counts m) :
    make_unique_aux counts rest =
      (List.range rest.length).map (fun i =>
        let name := normalizeName (rest.getD i none)
        let n := (m ++ (rest.take i).map normalizeName).count name
        if n = 0 then name else name ++ "." ++ toString n) := by
  induction rest generalizing counts m with
  | nil => simp [make_unique_aux]
  | cons c tl ih =>
      have hcol := henc (normalizeName c)
      have hstep := countsEncode_step counts m henc (normalizeName c)
      rw [List.length_cons, List.range_succ_eq_map, List.map_cons]
      cases h0 : m.count (normalizeName c) with
      | zero =>
          have hlk : lookupCount counts (normalizeName c) = none := by
            rw [hcol, h0]; simp
          have := ih (setCount counts (normalizeName c) 0) (m ++ [normalizeName c])
            (by simpa [hlk] using hstep)
          simp only [make_unique_aux, hlk, this]
          congr 1
          · simp [h0]
          · rw [List.map_map]
            apply List.map_congr_left
            intro i _
            simp [List.append_assoc, Function.comp]
      | succ k =>
          have hlk : lookupCount counts (normalizeName c) = some k := by
            rw [hcol, h0]; simp
          have := ih (setCount counts (normalizeName c) (k + 1))
            (m ++ [normalizeName c]) (by simpa [hlk] using hstep)
          simp only [make_unique_aux, hlk, this]
          congr 1
          · simp [h0]
          · rw [List.map_map]
            apply List.map_congr_left
            intro i _
            simp [List.append_assoc, Function.comp]

theorem make_unique_eq_dedupeSpec (input : List (Option String)) :
    make_unique input = dedupeSpec input := by
  have henc : CountsEncode [] [] := by
    intro name; simp [lookupCount]
  simpa [dedupeSpec] using make_unique_aux_spec input [] [] henc

/-! ### Numeric coercion (pandas `to_numeric` / Python `float`)

`pd.to_numeric(x, errors='coerce')` (app.py line 112) and `float(x)`
(line 123) are modelled by one decimal parser. It accepts an optionally
signed run of ASCII digits with an optional fractional part and an
optional exponent, surrounded by optional whitespace, and rejects
everything else (yielding the "missing" marker `none`, pandas `NaN`).
Non-finite spellings (`inf`, `nan`) and underscore separators are outside
the modelled input alphabet. The parsed value is kept as an integer
mantissa with a decimal scale so that parsing is executable; `toNumeric`
interprets it in `ℚ`. -/

/-- Digit run to its value. -/
def digitsVal (l : List Char) : Nat :=
  l.foldl (fun a c => a * 10 + (c.toNat - 48)) 0

/-- Consume an optional leading sign. -/
def splitSign : List Char → Int × List Char
  | '+' :: r => (1, r)
  | '-' :: r => (-1, r)
  | l => (1, l)

/-- Parse the tail after the mantissa: empty, or an exponent marker with a
signed digit run and nothing after it. -/
def parseExponentTail : List Char → Option Int
  | [] => some 0
  | c :: r =>
      if c = 'e' ∨ c = 'E' then
        let p := splitSign r
        let ds := p.2.takeWhile Char.isDigit
        let rest := p.2.dropWhile Char.isDigit
        if ds = [] ∨ rest ≠ [] then none
        else some (p.1 * (digitsVal ds : Int))
      else none

/-- Numeric parse of a string, as an integer mantissa and a decimal scale:
`some (m, k)` stands for the value `m / 10 ^ k`. -/
def toNumericParts (s : String) : Option (Int × Nat) :=
  let l := ((s.toList.dropWhile isPySpace).reverse.dropWhile isPySpace).reverse
  let p := splitSign l
  let ip := p.2.takeWhile Char.isDigit
  let l2 := p.2.dropWhile Char.isDigit
  let fr := match l2 with
    | '.' :: r => (r.takeWhile Char.isDigit, r.dropWhile Char.isDigit)
    | _ => ([], l2)
  if ip = [] ∧ fr.1 = [] then none
  else
    match parseExponentTail fr.2 with
    | none => none
    | some e =>
        let mant : Int := p.1 * ((digitsVal ip * 10 ^ fr.1.length + digitsVal fr.1 : Nat) : Int)
        if 0 ≤ e then some (mant * 10 ^ e.toNat, fr.1.length)
        else some (mant, fr.1.length + (-e).toNat)

/-- Numeric coercion of a string (`pd.to_numeric(·, errors='coerce')` on a
single value, and `float(·)` wrapped in its `try`): `none` is the missing
marker. -/
def toNumeric (s : String) : Option ℚ :=
  (toNumericParts s).map (fun p => (p.1 : ℚ) / (10 : ℚ) ^ p.2)

/-! ### The combined table and amount-column normalization (app.py 88-115) -/

/-- Removal of `$` and `,` characters (app.py line 109,
`replace(r'[\$,]', '', regex=True)`). -/
def stripCurrency (s : String) : String :=
  String.mk (s.toList.filter (fun c => !(c = '$' || c = ',')))

/-- Removal of `,` characters (app.py line 110 `str.replace(',', '')`, and
line 121 `total_amounts[0].replace(',', '')`). -/
def stripComma (s : String) : String :=
  String.mk (s.toList.filter (fun c => !(c = ',')))

/-- Lines 109-112 applied to one cell of an amount column: strip `$` and
`,` (109), strip `,` again (110), then coerce (112). A missing cell stays
missing: `Series.replace` leaves `None` untouched, `.str.replace` maps a
non-string entry to `NaN`, and `to_numeric` keeps `NaN`. -/
def normCell (cell : Option String) : Option ℚ :=
  cell.bind (fun s => toNumeric (stripComma (stripCurrency s)))

/-- The combined table as produced by `pd.concat` (line 88), column-major:
each column is its raw (possibly `None`) header label paired with its
cells, in first-seen order. -/
structure RawCombined where
  cols : List (Option String × List (Option String))
deriving DecidableEq

/-- Line 97 applied to one column label: `str(col).strip().lower()`. -/
def cleanName (col : Option String) : String :=
  pyLower (pyStrip (pyStr col))

/-- The combined table after the renaming pass of line 97, column-major. -/
structure PTable where
  cols : List (String × List (Option String))
deriving DecidableEq

/-- Line 97: rename every column of the combined table. -/
def cleanTable (t : RawCombined) : PTable :=
  ⟨t.cols.map (fun p => (cleanName p.fst, p.snd))⟩

/-- Line 103's membership test: `'amount' in col or 'price' in col or
'total' in col`. -/
def isAmountName (col : String) : Bool :=
  strContains col "amount" || strContains col "price" || strContains col "total"

/-- `amount_columns` (app.py line 103). -/
def amount_columns (t : PTable) : List String :=
  (t.cols.map Prod.fst).filter isAmountName

/-- `total_calculated` (app.py line 115): after the normalization loop of
lines 107-112, `full_table[amount_columns].sum(numeric_only=True)` sums
each amount column skipping missing values, and the outer `.sum()` adds
the per-column sums. -/
def total_calculated (t : PTable) : ℚ :=
  ((t.cols.filter (fun p => isAmountName p.fst)).map
    (fun p => ((p.snd.map normCell).filterMap id).sum)).sum

/-- Written from the spec's words (§4.4): the flat double sum, over every
column whose lower-cased combined-table name contains "amount", "price" or
"total" and over every row, of the cells that coerce to numbers after a
single-pass removal of `$` and `,` characters; non-coercible cells
contribute nothing. Stated on the raw combined table, before the renaming
pass. -/
def specFlatTotal (t : RawCombined) : ℚ :=
  ((t.cols.filter (fun p => isAmountName (cleanName p.fst))).flatMap
    (fun p => p.snd.flatMap (fun cell =>
      match cell with
      | none => ([] : List ℚ)
      | some s => (toNumeric (stripCurrency s)).toList))).sum

/-! ### The normalization loop on one pandas column (app.py 107-112)

A pandas column is either an object column of optional strings (its state
when extracted from the PDF) or a numeric (`float64`/`int64`) column of
optional rationals (`none` is `NaN`, its state after `pd.to_numeric`).
`Series.replace(regex=...)` rewrites only string values and leaves a
numeric column unchanged; the `.str` accessor is defined only on string
data and raises `AttributeError` on a numeric column, which the `Except`
error below records. -/

/-- A pandas column's data. -/
inductive ColData where
  | strCol (cells : List (Option String))
  | numCol (cells : List (Option ℚ))
deriving DecidableEq

/-- Line 109, `Series.replace(r'[\$,]', '', regex=True)`: rewrites the
string values, leaves missing values and numeric columns unchanged. -/
def seriesReplaceCurrency : ColData → ColData
  | .strCol cells => .strCol (cells.map (Option.map stripCurrency))
  | .numCol cells => .numCol cells

/-- Line 110, `Series.str.replace(',', '', regex=False)`: maps the string
values and keeps missing entries missing; on a numeric column the `.str`
accessor raises `AttributeError`. -/
def seriesStrReplaceComma : ColData → Except String ColData
  | .strCol cells => .ok (.strCol (cells.map (Option.map stripComma)))
  | .numCol _ => .error "AttributeError: Can only use .str accessor with string values!"

/-- Line 112, `pd.to_numeric(·, errors='coerce')`: coerces a string column
cell-wise (`none` for a failed coercion) and returns a numeric column
unchanged. -/
def seriesToNumeric : ColData → ColData
  | .strCol cells => .numCol (cells.map (fun c => c.bind toNumeric))
  | .numCol cells => .numCol cells

/-- The body of the normalization loop (lines 109-112) on one column. -/
def normalizeSeries (c : ColData) : Except String ColData :=
  (seriesStrReplaceComma (seriesReplaceCurrency c)).map seriesToNumeric

/-! ### Stated-total extraction and reconciliation (app.py 119-136) -/

/-- The character class `[\d,\.]` of the stated-total regex. -/
def isNumChar (c : Char) : Bool :=
  c.isDigit || c = ',' || c = '.'

/-- Case-insensitive match of the literal `Total Amount` at the head of the
text (re.IGNORECASE); on success returns the remainder. -/
def ciStripTotalAmount (l : List Char) : Option (List Char) :=
  if (l.take 12).map Char.toLower = "total amount".toList
  then some (l.drop 12) else none

/-- The `.*?([\d,\.]+)` part of the regex at a fixed start: scan past
intervening characters (`.` does not cross a newline) to the first
`[\d,\.]` character and capture the maximal run from there. -/
def captureSameLine : List Char → Option (List Char)
  | [] => none
  | c :: rest =>
      if c = '\n' then none
      else if isNumChar c then some (c :: rest.takeWhile isNumChar)
      else captureSameLine rest

/-- `re.findall(r'Total Amount.*?([\d,\.]+)', text, re.IGNORECASE)` and
`total_amounts[0]` (lines 119-121): the captured group of the leftmost
match, scanning start positions left to right. -/
def total_amounts_head : List Char → Option (List Char)
  | [] => none
  | c :: rest =>
      match ciStripTotalAmount (c :: rest) with
      | some rem =>
          match captureSameLine rem with
          | some cap => some cap
          | none => total_amounts_head rest
      | none => total_amounts_head rest

/-- The regex match attempt anchored at start position `i`. -/
def matchCaptureAt (l : List Char) (i : Nat) : Option (List Char) :=
  (ciStripTotalAmount (l.drop i)).bind captureSameLine

/-- Written from the spec's words (§4.4): the captured run of the first
occurrence in document order — try every start position in increasing
order and take the first capture. -/
def specFirstCapture (l : List Char) : Option (List Char) :=
  ((List.range (l.length + 1)).filterMap (matchCaptureAt l)).head?

/-- The four user-visible outcomes of the stated-total comparison
(lines 125-132). -/
inductive StatedOutcome where
  | success : StatedOutcome
  | discrepancy (calculated stated : ℚ) : StatedOutcome
  | cannotConvert : StatedOutcome
  | notIdentified : StatedOutcome
deriving DecidableEq

/-- Lines 119-132: extract the first stated total, strip commas, coerce,
and compare with tolerance `0.01`. -/
def reconcileText (totalCalc : ℚ) (text : List Char) : StatedOutcome :=
  match total_amounts_head text with
  | none => .notIdentified
  | some raw =>
      match toNumeric (String.mk (raw.filter (fun c => !(c = ',')))) with
      | none => .cannotConvert
      | some totalProvided =>
          if |totalCalc - totalProvided| < 1 / 100 then .success
          else .discrepancy totalCalc totalProvided

/-- What the amount branch (lines 105-136) surfaces: the stated-total
outcome and the calculated total displayed by line 136. -/
structure AmountReport where
  outcome : StatedOutcome
  displayedTotal : ℚ
deriving DecidableEq

/-- Lines 105-139: when no column qualifies the branch is skipped and
line 139 reports the missing amount columns (`none` here); otherwise the
normalized table is summed and reconciled. -/
def amountBranch (t : PTable) (text : List Char) : Option AmountReport :=
  if amount_columns t = [] then none
  else some { outcome := reconcileText (total_calculated t) text,
              displayedTotal := total_calculated t }

/-- Everything the pipeline surfaces after the combined table exists:
line 93 displays the combined table (before the renaming of line 97)
unconditionally, then the amount branch runs on the renamed table. -/
structure PipelineView where
  displayedTable : RawCombined
  report : Option AmountReport

/-- Lines 88-139 for one upload, given the combined table and transcript. -/
def runPipeline (t : RawCombined) (text : List Char) : PipelineView :=
  { displayedTable := t, report := amountBranch (cleanTable t) text }

/-- Model of Python's two-decimal fixed formatting (line 136 and line 128,
format spec `.2f`) on a rational: round to cents, ties to even, and render
with exactly two decimals. Executable over `Int` only. -/
def formatFixed2 (q : ℚ) : String :=
  let sign := if q < 0 then "-" else ""
  let n : Int := |q.num| * 100
  let d : Int := (q.den : Int)
  let fl := n.fdiv d
  let r2 := 2 * n.fmod d
  let cents := if r2 < d then fl
    else if d < r2 then fl + 1
    else if fl % 2 = 0 then fl else fl + 1
  let f := cents % 100
  sign ++ toString (cents / 100) ++ "." ++
    (if f < 10 then "0" ++ toString f else toString f)

/-! ### Table acceptance (app.py 70-79) -/

/-- `df.columns.duplicated().any()` (line 75): some label occurs twice. -/
def hasDup (l : List (Option String)) : Bool :=
  !(decide l.Nodup)

/-- Lines 75-77: the header is passed through `make_unique` exactly when it
contains duplicate labels, and is otherwise kept as constructed (possibly
containing `None` labels). -/
def processHeader (header : List (Option String)) : List (Option String) :=
  if hasDup header then (make_unique header).map some else header

/-- A table accepted by lines 70-79, after header handling. -/
structure AcceptedTable where
  header : List (Option String)
  rows : List (List (Option String))

/-- Lines 70-81: a raw page table is accepted only if it has more than one
row and a nonempty header row; its header then goes through
`processHeader`. -/
def acceptTable (raw : List (List (Option String))) : Option AcceptedTable :=
  match raw with
  | [] => none
  | header :: rest =>
      if 0 < rest.length ∧ 0 < header.length then
        some { header := processHeader header, rows := rest }
      else none

/-! ### Helper lemmas -/

theorem filter_comma_idem (l : List Char) :
    (l.filter (fun c => !(c = '$' || c = ','))).filter (fun c => !(c = ','))
      = l.filter (fun c => !(c = '$' || c = ',')) := by
  rw [List.filter_filter]
  apply List.filter_congr
  intro c _
  by_cases h1 : c = '$' <;> by_cases h2 : c = ',' <;> simp [h1, h2]

/-- Line 110 is a no-op after line 109: the currency strip already removed
every comma. -/
theorem stripComma_stripCurrency (s : String) :
    stripComma (stripCurrency s) = stripCurrency s :=
  congrArg String.mk (filter_comma_idem s.toList)

theorem filterMap_eq_flatMap_toList {α β : Type} (f : α → Option β) (l : List α) :
    l.filterMap f = l.flatMap (fun a => (f a).toList) := by
  induction l with
  | nil => rfl
  | cons c tl ih => cases h : f c <;> simp [List.filterMap_cons, h, ih]

/-- One normalized amount column, flattened to its coercible values. -/
theorem normCell_column (cells : List (Option String)) :
    (cells.map normCell).filterMap id =
      cells.flatMap (fun cell => match cell with
        | none => ([] : List ℚ)
        | some s => (toNumeric (stripCurrency s)).toList) := by
  induction cells with
  | nil => rfl
  | cons c tl ih =>
      cases c with
      | none => simpa [normCell] using ih
      | some s =>
          cases h : toNumeric (stripCurrency s) with
          | none => simp [normCell, stripComma_stripCurrency, h, ih]
          | some q => simp [normCell, stripComma_stripCurrency, h, ih]

/-- Core of claim C1: the per-column sum of sums computed by line 115
equals the flat double sum described by the spec. -/
theorem total_calculated_cleanTable (t : RawCombined) :
    total_calculated (cleanTable t) = specFlatTotal t := by
  unfold total_calculated specFlatTotal cleanTable
  rw [List.filter_map, List.map_map, List.flatMap_def, List.sum_flatten,
    List.map_map]
  congr 1
  apply List.map_congr_left
  intro p _
  simp only [Function.comp]
  rw [normCell_column, List.flatMap_def, List.sum_flatten, List.map_map]

/-- The worked example of spec §8: columns Item/Amount, rows
Wood/$1,000 and Nails/$50.00. -/
def exampleTableC1 : RawCombined :=
  ⟨[(some "Item", [some "Wood", some "Nails"]),
    (some "Amount", [some "$1,000", some "$50.00"])]⟩

theorem normCell_wood :
    normCell (some "$1,000") = some 1000 := by
  have h1 : toNumericParts (stripComma (stripCurrency "$1,000")) = some (1000, 0) := by
    decide
  show toNumeric (stripComma (stripCurrency "$1,000")) = some 1000
  rw [toNumeric, h1]
  norm_num

theorem normCell_nails :
    normCell (some "$50.00") = some 50 := by
  have h2 : toNumericParts (stripComma (stripCurrency "$50.00")) = some (5000, 2) := by
    decide
  show toNumeric (stripComma (stripCurrency "$50.00")) = some 50
  rw [toNumeric, h2]
  norm_num

theorem normCell_example :
    ([some "$1,000", some "$50.00"] : List (Option String)).map normCell
      = [some 1000, some 50] := by
  simp [normCell_wood, normCell_nails]

theorem total_example :
    total_calculated (cleanTable exampleTableC1) = 1050 := by
  have hcells : (([some "$1,000", some "$50.00"] : List (Option String)).map
      normCell).filterMap id = [1000, 50] := by
    rw [normCell_example]; rfl
  unfold total_calculated
  rw [show (cleanTable exampleTableC1).cols
      = [("item", [some "Wood", some "Nails"]),
         ("amount", [some "$1,000", some "$50.00"])] from by decide]
  rw [show List.filter
        (fun p : String × List (Option String) => isAmountName p.fst)
        [("item", [some "Wood", some "Nails"]),
         ("amount", [some "$1,000", some "$50.00"])]
      = [("amount", [some "$1,000", some "$50.00"])] from by decide]
  rw [List.map_cons, List.map_nil]
  rw [hcells]
  norm_num

/-- Shifting the regex start position past the head character. -/
theorem matchCaptureAt_succ (c : Char) (tl : List Char) (i : Nat) :
    matchCaptureAt (c :: tl) (i + 1) = matchCaptureAt tl i := rfl

theorem specFirstCapture_cons (c : Char) (tl : List Char) :
    specFirstCapture (c :: tl) =
      (matchCaptureAt (c :: tl) 0).or (specFirstCapture tl) := by
  unfold specFirstCapture
  rw [List.length_cons, List.range_succ_eq_map, List.filterMap_cons]
  have hshift : (matchCaptureAt (c :: tl)) ∘ Nat.succ = matchCaptureAt tl := by
    funext i; rfl
  cases h : matchCaptureAt (c :: tl) 0 with
  | none =>
      rw [List.filterMap_map, hshift, Option.none_or]
  | some cap =>
      rfl

/-- The leftmost-match scan of `re.findall(...)[0]` returns the capture of
the first matching start position in document order. -/
theorem total_amounts_head_eq_spec (l : List Char) :
    total_amounts_head l = specFirstCapture l := by
  induction l with
  | nil => decide
  | cons c tl ih =>
      rw [specFirstCapture_cons]
      cases h1 : ciStripTotalAmount (c :: tl) with
      | none =>
          have hm : matchCaptureAt (c :: tl) 0 = none := by
            unfold matchCaptureAt
            rw [List.drop_zero, h1]; rfl
          rw [hm, Option.none_or]
          simpa [total_amounts_head, h1] using ih
      | some rem =>
          cases h2 : captureSameLine rem with
          | none =>
              have hm : matchCaptureAt (c :: tl) 0 = none := by
                unfold matchCaptureAt
                rw [List.drop_zero, h1]
                simpa using h2
              rw [hm, Option.none_or]
              simpa [total_amounts_head, h1, h2] using ih
          | some cap =>
              have hm : matchCaptureAt (c :: tl) 0 = some cap := by
                unfold matchCaptureAt
                rw [List.drop_zero, h1]
                simpa using h2
              rw [hm]
              show total_amounts_head (c :: tl) = some cap
              simp [total_amounts_head, h1, h2]

/-! ### The claims -/

/-- Claim C1: for every combined table with at least one qualifying amount
column (under the NormalizedTable header-uniqueness invariant),
`total_calculated` equals the flat double sum — over every column whose
lower-cased name contains "amount", "price" or "total" and over every
row — of the cells that coerce to numbers after stripping `$` and `,`,
non-coercible cells excluded; on the example table the normalization
yields 1000 and 50 and the calculated total is 1050. -/
theorem claim_C1_calculated_total (t : RawCombined)
    (hnd : ((cleanTable t).cols.map Prod.fst).Nodup)
    (hne : amount_columns (cleanTable t) ≠ []) :
    total_calculated (cleanTable t) = specFlatTotal t ∧
    ([some "$1,000", some "$50.00"] : List (Option String)).map normCell
      = [some 1000, some 50] ∧
    total_calculated (cleanTable exampleTableC1) = 1050 :=
  ⟨total_calculated_cleanTable t, normCell_example, total_example⟩

theorem claim_C1_witness :
    (((cleanTable exampleTableC1).cols.map Prod.fst).Nodup ∧
      amount_columns (cleanTable exampleTableC1) ≠ []) ∧
    (total_calculated (cleanTable exampleTableC1) = specFlatTotal exampleTableC1 ∧
     ([some "$1,000", some "$50.00"] : List (Option String)).map normCell
       = [some 1000, some 50] ∧
     total_calculated (cleanTable exampleTableC1) = 1050) :=
  ⟨⟨by decide, by decide⟩,
    claim_C1_calculated_total exampleTableC1 (by decide) (by decide)⟩

/-- Claim C2: for every transcript in which the case-insensitive pattern
"Total Amount" followed by a run of digit/comma/period characters matches
at least once, the stated total is taken from the first matching position
in document order only, and when the captured run parses to a number after
comma removal the match verdict is success exactly when the absolute
difference of the totals is below 0.01. -/
theorem claim_C2_first_match (text : List Char) (totalCalc : ℚ)
    (hocc : ∃ i, (matchCaptureAt text i).isSome = true) :
    total_amounts_head text = specFirstCapture text ∧
    (total_amounts_head text).isSome = true ∧
    (∀ raw q, total_amounts_head text = some raw →
      toNumeric (String.mk (raw.filter (fun c => !(c = ',')))) = some q →
      (reconcileText totalCalc text = StatedOutcome.success ↔
        |totalCalc - q| < 1 / 100)) := by
  obtain ⟨i, hi⟩ := hocc
  have hle : i < text.length + 1 := by
    by_contra hgt
    push_neg at hgt
    have hdrop : text.drop i = [] := List.drop_eq_nil_of_le (by omega)
    unfold matchCaptureAt at hi
    rw [hdrop] at hi
    have hnil : ciStripTotalAmount [] = none := by decide
    rw [hnil] at hi
    simp at hi
  refine ⟨total_amounts_head_eq_spec text, ?_, ?_⟩
  · rw [total_amounts_head_eq_spec]
    cases hs : specFirstCapture text with
    | some v => rfl
    | none =>
        exfalso
        unfold specFirstCapture at hs
        rw [List.head?_eq_none_iff, List.filterMap_eq_nil_iff] at hs
        have := hs i (List.mem_range.mpr hle)
        rw [this] at hi
        simp at hi
  · intro raw q h1 h2
    simp only [reconcileText, h1, h2]
    by_cases hlt : |totalCalc - q| < 1 / 100
    · simp [hlt]
    · simp [hlt]

theorem claim_C2_witness :
    (∃ i, (matchCaptureAt ("Total Amount: 1,050.00".toList) i).isSome = true) ∧
    (total_amounts_head ("Total Amount: 1,050.00".toList)
        = specFirstCapture ("Total Amount: 1,050.00".toList) ∧
     (total_amounts_head ("Total Amount: 1,050.00".toList)).isSome = true ∧
     (∀ raw q,
        total_amounts_head ("Total Amount: 1,050.00".toList) = some raw →
        toNumeric (String.mk (raw.filter (fun c => !(c = ',')))) = some q →
        (reconcileText 1050 ("Total Amount: 1,050.00".toList)
            = StatedOutcome.success ↔ |(1050 : ℚ) - q| < 1 / 100))) :=
  ⟨⟨0, by decide⟩,
    claim_C2_first_match ("Total Amount: 1,050.00".toList) 1050 ⟨0, by decide⟩⟩

/-- Claim C3 (refuted): `make_unique` does not always produce duplicate-free
output. On `["a", "a.1", "a"]` the repeat of `"a"` is suffixed to `"a.1"`,
colliding with the distinct input name `"a.1"`, so the result
`["a", "a.1", "a.1"]` contains a duplicate even though the function's own
docstring promises unique column names. -/
theorem claim_C3_unique_fails :
    make_unique [some "a", some "a.1", some "a"] = ["a", "a.1", "a.1"] ∧
    ¬ (["a", "a.1", "a.1"] : List String).Nodup := by decide

/-- Claim C4 counterexample: an empty column name is not replaced by the
`"Unnamed"` placeholder — only `None` is — so `dedupe([None, "", "X"])`
returns `["Unnamed", "", "X"]`, not `["Unnamed", "Unnamed.1", "X"]`. -/
theorem claim_C4_counterexample :
    make_unique [none, some "", some "X"] = ["Unnamed", "", "X"] ∧
    make_unique [none, some "", some "X"] ≠ ["Unnamed", "Unnamed.1", "X"] := by
  decide

/-- Claim C4 as amended: only `None` entries are replaced by `"Unnamed"`
before duplicate counting; empty entries stay the (trimmed) empty string
and dedupe against other empty strings, so
`dedupe([None, "", "X"]) = ["Unnamed", "", "X"]`. -/
theorem claim_C4_amended :
    normalizeName none = "Unnamed" ∧
    normalizeName (some "") = "" ∧
    make_unique [none, some "", some "X"] = ["Unnamed", "", "X"] ∧
    make_unique [some "", some ""] = ["", ".1"] := by decide

/-- Claim C5 counterexample: re-running the normalization loop body on an
already-numeric column is not a no-op returning the same column — the
`.str.replace` pass of line 110 is undefined on a numeric column (pandas
raises `AttributeError`), so the result is an error, not the column. -/
theorem claim_C5_counterexample :
    normalizeSeries (ColData.numCol [some 50]) ≠
      Except.ok (ColData.numCol [some 50]) := by
  intro h
  simpa [normalizeSeries, seriesReplaceCurrency, seriesStrReplaceComma,
    Except.map] using h

/-- Claim C5 as amended: the coercion step alone is idempotent —
`pd.to_numeric` on an already-numeric column returns it unchanged — but
the full normalization step cannot be re-applied to a numeric column: its
`.str.replace` pass fails there, while on a string column the loop body
runs and coerces cell-wise. -/
theorem claim_C5_amended :
    (∀ cells, seriesToNumeric (ColData.numCol cells) = ColData.numCol cells) ∧
    (∀ cells, normalizeSeries (ColData.numCol cells) =
      Except.error
        "AttributeError: Can only use .str accessor with string values!") ∧
    (∀ cells, normalizeSeries (ColData.strCol cells) =
      Except.ok (ColData.numCol (cells.map normCell))) := by
  refine ⟨fun cells => rfl, fun cells => rfl, fun cells => ?_⟩
  unfold normalizeSeries seriesReplaceCurrency seriesStrReplaceComma
  simp only [Except.map, seriesToNumeric, List.map_map, Except.ok.injEq,
    ColData.numCol.injEq]
  apply List.map_congr_left
  intro c _
  cases c <;> simp [normCell, Function.comp]

/-- Claim C6: `make_unique` emits the first occurrence of each trimmed name
unsuffixed and the Nth repeat (N ≥ 1) as `"{name}.{N}"`, with the per-name
counter starting at 0; in particular three repeats of `"Cost"` give
`["Cost", "Cost.1", "Cost.2"]`. -/
theorem claim_C6_suffix_scheme :
    (∀ input : List (Option String), make_unique input = dedupeSpec input) ∧
    make_unique [some "Cost", some "Cost", some "Cost"]
      = ["Cost", "Cost.1", "Cost.2"] :=
  ⟨make_unique_eq_dedupeSpec, by decide⟩

/-- Claim C7: when no "Total Amount" pattern matches, reconciliation
reports the not-identified outcome (stated total and verdict absent, not
an error) while the calculated total is still computed and displayed; and
when the first captured run fails numeric conversion after comma removal,
the distinct cannot-convert outcome is reported instead of a crash. -/
theorem claim_C7_outcomes (t : PTable) (text : List Char)
    (hne : amount_columns t ≠ []) :
    (total_amounts_head text = none →
      reconcileText (total_calculated t) text = StatedOutcome.notIdentified ∧
      amountBranch t text =
        some { outcome := StatedOutcome.notIdentified,
               displayedTotal := total_calculated t }) ∧
    (∀ raw, total_amounts_head text = some raw →
      toNumeric (String.mk (raw.filter (fun c => !(c = ',')))) = none →
      reconcileText (total_calculated t) text = StatedOutcome.cannotConvert) := by
  constructor
  · intro h
    have hr : reconcileText (total_calculated t) text
        = StatedOutcome.notIdentified := by
      simp [reconcileText, h]
    exact ⟨hr, by simp [amountBranch, hne, hr]⟩
  · intro raw h1 h2
    simp [reconcileText, h1, h2]

/-- A table whose single amount column holds one non-coercible cell and
one missing cell. -/
def witTable : PTable := ⟨[("amount", [some "abc", none])]⟩

theorem claim_C7_witness :
    amount_columns witTable ≠ [] ∧
    ((total_amounts_head ("hello".toList) = none →
        reconcileText (total_calculated witTable) ("hello".toList)
          = StatedOutcome.notIdentified ∧
        amountBranch witTable ("hello".toList) =
          some { outcome := StatedOutcome.notIdentified,
                 displayedTotal := total_calculated witTable }) ∧
     (∀ raw, total_amounts_head ("hello".toList) = some raw →
        toNumeric (String.mk (raw.filter (fun c => !(c = ',')))) = none →
        reconcileText (total_calculated witTable) ("hello".toList)
          = StatedOutcome.cannotConvert)) :=
  ⟨by decide, claim_C7_outcomes witTable ("hello".toList) (by decide)⟩

/-- Claim C8: when no column name of the combined table contains "amount",
"price" or "total", the amount branch is skipped and line 139's missing
amount-columns error is reported (`report = none`), while the extracted
combined table itself was already displayed unchanged by line 93. -/
theorem claim_C8_no_amount (t : RawCombined) (text : List Char)
    (h : ∀ p ∈ t.cols, isAmountName (cleanName p.fst) = false) :
    (runPipeline t text).report = none ∧
    (runPipeline t text).displayedTable = t := by
  have hac : amount_columns (cleanTable t) = [] := by
    unfold amount_columns cleanTable
    rw [List.filter_eq_nil_iff]
    intro a ha
    simp only [List.map_map, List.mem_map, Function.comp] at ha
    obtain ⟨p, hp, rfl⟩ := ha
    simp [h p hp]
  exact ⟨by simp [runPipeline, amountBranch, hac], rfl⟩

/-- The spec §8 example of a table with no amount-like column names. -/
def descNotesTable : RawCombined :=
  ⟨[(some "Description", [some "x"]), (some "Notes", [some "y"])]⟩

theorem claim_C8_witness :
    (∀ p ∈ descNotesTable.cols, isAmountName (cleanName p.fst) = false) ∧
    ((runPipeline descNotesTable ("t".toList)).report = none ∧
     (runPipeline descNotesTable ("t".toList)).displayedTable
       = descNotesTable) :=
  ⟨by decide, claim_C8_no_amount descNotesTable ("t".toList) (by decide)⟩

/-- Claim C9: header deduplication (and with it the `"Unnamed"`
substitution) runs only when the raw header contains duplicate labels, so
a header with no duplicates keeps a lone `None` label through table
construction, and the lower-casing pass of line 97 turns that label into
the literal column name `"none"`. -/
theorem claim_C9_none_header (header : List (Option String)) (i : Nat)
    (hnd : hasDup header = false) (hnone : header[i]? = some none) :
    processHeader header = header ∧
    (header.map cleanName)[i]? = some "none" := by
  constructor
  · simp [processHeader, hnd]
  · rw [List.getElem?_map, hnone]
    rfl

theorem claim_C9_witness :
    (hasDup [some "a", none] = false ∧
      ([some "a", none] : List (Option String))[1]? = some none) ∧
    (processHeader [some "a", none] = [some "a", none] ∧
     (([some "a", none] : List (Option String)).map cleanName)[1]?
       = some "none") :=
  ⟨⟨by decide, by decide⟩,
    claim_C9_none_header [some "a", none] 1 (by decide) (by decide)⟩

/-- Claim C10: when every cell of every qualifying amount column fails
numeric coercion, reconciliation still runs without error: the calculated
total is the empty sum 0, it is still compared against any stated total
and displayed, and the two-decimal rendering of 0 is "0.00". -/
theorem claim_C10_all_coercions_fail (t : PTable) (text : List Char)
    (hne : amount_columns t ≠ [])
    (hall : ∀ p ∈ t.cols, isAmountName p.fst = true →
      ∀ c ∈ p.snd, normCell c = none) :
    total_calculated t = 0 ∧
    amountBranch t text =
      some { outcome := reconcileText 0 text, displayedTotal := 0 } ∧
    formatFixed2 0 = "0.00" := by
  have hz : total_calculated t = 0 := by
    unfold total_calculated
    apply List.sum_eq_zero
    intro x hx
    rw [List.mem_map] at hx
    obtain ⟨p, hp, rfl⟩ := hx
    rw [List.mem_filter] at hp
    have hcells := hall p hp.1 hp.2
    have hnil : (p.snd.map normCell).filterMap id = [] := by
      rw [List.filterMap_map, List.filterMap_eq_nil_iff]
      intro a ha
      simpa using hcells a ha
    rw [hnil]
    rfl
  refine ⟨hz, ?_, by decide⟩
  simp [amountBranch, hne, hz]

theorem claim_C10_witness :
    (amount_columns witTable ≠ [] ∧
      (∀ p ∈ witTable.cols, isAmountName p.fst = true →
        ∀ c ∈ p.snd, normCell c = none)) ∧
    (total_calculated witTable = 0 ∧
     amountBranch witTable ("x".toList) =
       some { outcome := reconcileText 0 ("x".toList), displayedTotal := 0 } ∧
     formatFixed2 0 = "0.00") :=
  ⟨⟨by decide, by decide⟩,
    claim_C10_all_coercions_fail witTable ("x".toList) (by decide) (by decide)⟩
